import Mathlib

/-!
Verification development for the diff-to-tour generator in `src/index.ts`
(project git2codetour).  The diff-parsing state machine (`generateCodeTour`,
lines 50-142), the step synthesizer (`createSteps`, lines 160-222, and
`generateStepDescription`, lines 224-259) and the language classifier
(`getLanguageFromFileName`, lines 261-307) are translated here as executable
Lean definitions.  JavaScript strings are modelled as Lean `String`
(character lists); JS numbers that only ever hold non-negative integers
(line counters) are modelled as `Nat`.
-/

/-- Model of `String.prototype.startsWith` restricted to character lists:
`charsPrefix pre s` is true when `pre` is a prefix of `s`. -/
def charsPrefix : List Char → List Char → Bool
  | [], _ => true
  | _ :: _, [] => false
  | p :: ps, c :: cs => p == c && charsPrefix ps cs

/-- `line.startsWith(pat)` from the source, on Lean strings. -/
def strStartsWith (s pat : String) : Bool :=
  charsPrefix pat.data s.data

/-- `s.split(sep)` for a one-character separator, as used by
`diff.split('\n')` at line 53 of the source.  JS semantics: a trailing
separator yields a trailing empty field, and splitting the empty string
yields one empty field. -/
def splitLinesAux : List Char → List Char → List String
  | [], acc => [String.mk acc.reverse]
  | c :: cs, acc =>
    if c = '\n' then String.mk acc.reverse :: splitLinesAux cs []
    else splitLinesAux cs (c :: acc)

/-- `diff.split('\n')` from line 53 of the source. -/
def splitLines (s : String) : List String :=
  splitLinesAux s.data []

/-- True when `pat` occurs in `cs` starting at index `i`. -/
def occursAt (pat cs : List Char) (i : Nat) : Bool :=
  (cs.drop i).take pat.length == pat

/-- Least index at or after `i` (fuel-bounded scan) where `pat` occurs. -/
def firstOccurAux (pat cs : List Char) : Nat → Nat → Option Nat
  | 0, _ => none
  | fuel + 1, i =>
    if occursAt pat cs i then some i else firstOccurAux pat cs fuel (i + 1)

/-- Least index where `pat` occurs in `cs`. -/
def firstOccur (pat cs : List Char) : Option Nat :=
  firstOccurAux pat cs (cs.length + 1) 0

/-- Greatest index `j ≥ k` where `pat` occurs in `cs`. -/
def lastOccurFrom (pat cs : List Char) (k : Nat) : Option Nat :=
  (((List.range (cs.length + 1)).filter
    (fun i => decide (k ≤ i) && occursAt pat cs i)).getLast?)

/-- Model of `line.match(/diff --git a\/(.*) b\/(.*)/)` at line 74 of the
source, returning capture group 2 (the target-side path).  The regex engine
takes the leftmost position where the literal `diff --git a/` occurs with a
` b/` somewhere after it; the greedy first group then pushes ` b/` to its
last occurrence, so group 2 is everything after the last ` b/`. -/
def diffGitDst (l : String) : Option String :=
  match firstOccur ("diff --git a/".data) l.data with
  | none => none
  | some i =>
    match lastOccurFrom (" b/".data) l.data (i + 13) with
    | none => none
    | some j => some (String.mk (l.data.drop (j + 3)))

/-- Number of consecutive decimal digits of `cs` starting at index `i`. -/
def digitRun (cs : List Char) (i : Nat) : Nat :=
  ((cs.drop i).takeWhile (fun c => c.isDigit)).length

/-- `parseInt(ds, 10)` on a digit string. -/
def natOfDigits (ds : List Char) : Nat :=
  ds.foldl (fun acc c => acc * 10 + (c.toNat - 48)) 0

/-- Attempt to match the hunk-header regex
`/@@ -(\d+)(?:,\d+)? \+(\d+)(?:,\d+)? @@/` (line 101 of the source) at
index `i` of `cs`, returning the parsed capture group 2 (`dstStart`).
The regex is deterministic under maximal munch: each `\d+` is followed by a
non-digit literal, and when the optional `,\d+` group cannot be taken the
required space fails on the comma anyway. -/
def hunkMatchAt (cs : List Char) (i : Nat) : Option Nat :=
  if occursAt ("@@ -".data) cs i then
    let p1 := i + 4
    let n1 := digitRun cs p1
    if n1 = 0 then none else
    let p2 := p1 + n1
    let p3 := if occursAt [','] cs p2 ∧ 0 < digitRun cs (p2 + 1)
              then p2 + 1 + digitRun cs (p2 + 1) else p2
    if occursAt (" +".data) cs p3 then
      let p4 := p3 + 2
      let n2 := digitRun cs p4
      if n2 = 0 then none else
      let p5 := p4 + n2
      let p6 := if occursAt [','] cs p5 ∧ 0 < digitRun cs (p5 + 1)
                then p5 + 1 + digitRun cs (p5 + 1) else p5
      if occursAt (" @@".data) cs p6 then
        some (natOfDigits ((cs.drop p4).take n2))
      else none
    else none
  else none

/-- Leftmost-match scan for the hunk-header regex over a whole line:
models `line.match(/@@ -(\d+)(?:,\d+)? \+(\d+)(?:,\d+)? @@/)` followed by
`parseInt(match[2], 10)` (lines 101-104 of the source). -/
def hunkScan (cs : List Char) : Nat → Nat → Option Nat
  | 0, _ => none
  | fuel + 1, i =>
    match hunkMatchAt cs i with
    | some d => some d
    | none => hunkScan cs fuel (i + 1)

/-- The parsed `dstStart` of a hunk-header line, when the regex matches. -/
def hunkHeaderDst (l : String) : Option Nat :=
  hunkScan l.data (l.data.length + 1) 0

/-- JS whitespace predicate used by `String.prototype.trim` (the source
builds descriptions from ASCII literals, so the ASCII whitespace subset is
the relevant one). -/
def jsWhitespace (c : Char) : Bool :=
  c == ' ' || c == '\t' || c == '\n' || c == '\r' || c == '\x0b' || c == '\x0c'

/-- `description.trim()` from line 241/258 of the source. -/
def jsTrim (s : String) : String :=
  String.mk (((s.data.dropWhile jsWhitespace).reverse.dropWhile jsWhitespace).reverse)

/-- The Node `path.extname` algorithm (posix variant), used at line 262 of
the source: the extension is the substring of the last path component from
its last dot, except when that dot is the leading character of the
component or the component is exactly `..`. -/
def extnameLoop (cs : List Char) :
    Nat → Int → Nat → Int → Bool → Int → (Int × Nat × Int × Int)
  | 0, startDot, startPart, endE, _, pre => (startDot, startPart, endE, pre)
  | i + 1, startDot, startPart, endE, matchedSlash, pre =>
    let c := cs.getD i ' '
    if c = '/' then
      if matchedSlash = false then (startDot, i + 1, endE, pre)
      else extnameLoop cs i startDot startPart endE matchedSlash pre
    else
      let endE2 := if endE = -1 then ((i : Int) + 1) else endE
      let ms2 := if endE = -1 then false else matchedSlash
      if c = '.' then
        if startDot = -1 then extnameLoop cs i (i : Int) startPart endE2 ms2 pre
        else if pre ≠ 1 then extnameLoop cs i startDot startPart endE2 ms2 1
        else extnameLoop cs i startDot startPart endE2 ms2 pre
      else
        if startDot ≠ -1 then extnameLoop cs i startDot startPart endE2 ms2 (-1)
        else extnameLoop cs i startDot startPart endE2 ms2 pre

/-- `path.extname(fileName)` from line 262 of the source. -/
def extname (p : String) : String :=
  match extnameLoop p.data p.data.length (-1) 0 (-1) true 0 with
  | (startDot, startPart, endE, pre) =>
    if startDot = -1 ∨ endE = -1 ∨ pre = 0 ∨
       (pre = 1 ∧ startDot = endE - 1 ∧ startDot = (startPart : Int) + 1) then ""
    else String.mk ((p.data.drop startDot.toNat).take (endE.toNat - startDot.toNat))

/-- `ext.toLowerCase()` from line 262 of the source: JS lowercases
character by character (ASCII mapping suffices for extension strings). -/
def toLowerStr (s : String) : String :=
  String.mk (s.data.map Char.toLower)

/-- The extension table `languageMap` from lines 263-304 of the source,
in declaration order. -/
def languageMap : List (String × String) :=
  [ (".js", "javascript"), (".jsx", "jsx"), (".ts", "typescript"),
    (".tsx", "tsx"), (".py", "python"), (".rb", "ruby"), (".java", "java"),
    (".c", "c"), (".cpp", "cpp"), (".cc", "cpp"), (".cxx", "cpp"),
    (".cs", "csharp"), (".php", "php"), (".go", "go"), (".rs", "rust"),
    (".swift", "swift"), (".kt", "kotlin"), (".scala", "scala"),
    (".sh", "bash"), (".bash", "bash"), (".zsh", "bash"), (".fish", "fish"),
    (".ps1", "powershell"), (".r", "r"), (".R", "r"), (".sql", "sql"),
    (".html", "html"), (".htm", "html"), (".xml", "xml"), (".css", "css"),
    (".scss", "scss"), (".sass", "sass"), (".less", "less"),
    (".json", "json"), (".yaml", "yaml"), (".yml", "yaml"),
    (".toml", "toml"), (".md", "markdown"), (".txt", "text"),
    (".bicep", "bicep") ]

/-- `getLanguageFromFileName` from lines 261-307 of the source.  The JS
lookup `languageMap[ext] || 'text'` falls back to `text` when the key is
absent (or its value falsy, i.e. the empty string). -/
def getLanguageFromFileName (fileName : String) : String :=
  match languageMap.find? (fun q => q.1 == toLowerStr (extname fileName)) with
  | some q => if q.2 = "" then "text" else q.2
  | none => "text"

/-- A position inside a file, as in the `selection` field of the
`CodeTourStep` interface (lines 14-23 of the source). -/
structure Position where
  line : Nat
  character : Nat
deriving DecidableEq, Repr

/-- The `selection` range of a step.  The TS field `end` is a Lean keyword
and is rendered here as `endPos`. -/
structure Selection where
  start : Position
  endPos : Position
deriving DecidableEq, Repr

/-- The `CodeTourStep` interface (lines 8-24 of the source); optional TS
fields become `Option` fields defaulting to `none`. -/
structure CodeTourStep where
  file : Option String := none
  directory : Option String := none
  line : Option Nat := none
  description : String
  title : Option String := none
  selection : Option Selection := none
deriving DecidableEq, Repr

/-- One flushed change run: exactly the argument tuple the parser passes to
`createSteps` at each of its four call sites (lines 69, 95, 127, 140). -/
structure ChangeRun where
  addedLines : List String
  deletedLines : List String
  fileName : String
  lineNumber : Nat
  isNewFile : Bool
deriving DecidableEq, Repr

/-- The mutable locals of the parsing loop in `generateCodeTour`
(lines 54-60), plus the list of runs flushed so far (the source pushes
`createSteps(...)` results directly; here the argument tuples are recorded
and the steps are produced by mapping `createSteps` over them, which yields
the same step list in the same order). -/
structure ParseState where
  currentFile : String
  currentLine : Nat
  changeStartLine : Nat
  addedLines : List String
  deletedLines : List String
  inHunk : Bool
  isNewFile : Bool
  runs : List ChangeRun
deriving DecidableEq, Repr

/-- Initial values of the loop locals (lines 54-60 of the source). -/
def initState : ParseState :=
  { currentFile := "", currentLine := 0, changeStartLine := 0,
    addedLines := [], deletedLines := [], inHunk := false,
    isNewFile := false, runs := [] }

/-- The `diff --git` branch of the loop (lines 66-84 of the source):
flush the previous accumulated run when the current file path is non-empty,
then reset all per-file state and take the new path from capture group 2
when the header regex matches. -/
def handleFileHeader (s : ParseState) (line : String) : ParseState :=
  let runs :=
    if s.currentFile ≠ "" ∧ (0 < s.addedLines.length ∨ 0 < s.deletedLines.length) then
      s.runs ++ [{ addedLines := s.addedLines, deletedLines := s.deletedLines,
                   fileName := s.currentFile, lineNumber := s.changeStartLine,
                   isNewFile := s.isNewFile }]
    else s.runs
  { currentFile := (diffGitDst line).getD s.currentFile,
    currentLine := 0, changeStartLine := 0,
    addedLines := [], deletedLines := [],
    inHunk := false, isNewFile := false, runs := runs }

/-- The `@@` branch of the loop (lines 92-107 of the source): flush any
accumulated run, set the cursor from the matched `dstStart` (leaving it
unchanged when the regex does not match), reset the run start, and enter
hunk mode. -/
def handleHunkHeader (s : ParseState) (line : String) : ParseState :=
  let flush := 0 < s.addedLines.length ∨ 0 < s.deletedLines.length
  let runs :=
    if flush then
      s.runs ++ [{ addedLines := s.addedLines, deletedLines := s.deletedLines,
                   fileName := s.currentFile, lineNumber := s.changeStartLine,
                   isNewFile := s.isNewFile }]
    else s.runs
  { s with
    runs := runs,
    addedLines := if flush then [] else s.addedLines,
    deletedLines := if flush then [] else s.deletedLines,
    currentLine := (hunkHeaderDst line).getD s.currentLine,
    changeStartLine := 0,
    inHunk := true }

/-- The in-hunk branch of the loop (lines 111-135 of the source): added
lines advance the cursor, deleted lines do not, a backslash line is
ignored, any other line is a context line that flushes the accumulated run
(using the recorded run start when set, else the cursor) and advances the
cursor. -/
def handleHunkBody (s : ParseState) (line : String) : ParseState :=
  if strStartsWith line "+" = true ∧ strStartsWith line "+++" = false then
    { s with
      changeStartLine := if s.changeStartLine = 0 then s.currentLine else s.changeStartLine,
      addedLines := s.addedLines ++ [line.drop 1],
      currentLine := s.currentLine + 1 }
  else if strStartsWith line "-" = true ∧ strStartsWith line "---" = false then
    { s with
      changeStartLine := if s.changeStartLine = 0 then s.currentLine else s.changeStartLine,
      deletedLines := s.deletedLines ++ [line.drop 1] }
  else if strStartsWith line "\\" = false then
    if 0 < s.addedLines.length ∨ 0 < s.deletedLines.length then
      { s with
        runs := s.runs ++ [{ addedLines := s.addedLines, deletedLines := s.deletedLines,
                             fileName := s.currentFile,
                             lineNumber := if 0 < s.changeStartLine then s.changeStartLine
                                           else s.currentLine,
                             isNewFile := s.isNewFile }],
        addedLines := [], deletedLines := [], changeStartLine := 0,
        currentLine := s.currentLine + 1 }
    else { s with currentLine := s.currentLine + 1 }
  else s

/-- One iteration of the parsing loop (lines 62-136 of the source).  The
source tests the same line against each branch in sequence: file header,
`--- /dev/null` marker, hunk header (which `continue`s), then the in-hunk
branch. -/
def processLine (s : ParseState) (line : String) : ParseState :=
  let s1 := if strStartsWith line "diff --git" = true then handleFileHeader s line else s
  let s2 := if strStartsWith line "--- /dev/null" = true then { s1 with isNewFile := true } else s1
  if strStartsWith line "@@" = true then handleHunkHeader s2 line
  else if s2.inHunk = true then handleHunkBody s2 line
  else s2

/-- The flush after the loop (lines 138-142 of the source), guarded on a
non-empty current file path and using the defensive `1` fallback for the
start line. -/
def finalFlush (s : ParseState) : List ChangeRun :=
  if s.currentFile ≠ "" ∧ (0 < s.addedLines.length ∨ 0 < s.deletedLines.length) then
    s.runs ++ [{ addedLines := s.addedLines, deletedLines := s.deletedLines,
                 fileName := s.currentFile,
                 lineNumber := if 0 < s.changeStartLine then s.changeStartLine else 1,
                 isNewFile := s.isNewFile }]
  else s.runs

/-- The ordered sequence of change runs flushed by the parser for a given
diff text (lines 53-142 of the source). -/
def parseRuns (diff : String) : List ChangeRun :=
  finalFlush ((splitLines diff).foldl processLine initState)

/-- `generateStepDescription` from lines 224-259 of the source. -/
def generateStepDescription (addedLines deletedLines : List String)
    (fileName : String) (isNewFile : Bool) : String :=
  let language := getLanguageFromFileName fileName
  if isNewFile = true then
    jsTrim ("Create a new file:\n\n>> touch " ++ fileName ++ "\n\n" ++
      (if 0 < addedLines.length then
        "Then add the following content:\n\n```" ++ language ++ "\n" ++
          String.intercalate "\n" addedLines ++ "\n```"
       else ""))
  else
    jsTrim
      (if 0 < deletedLines.length ∧ 0 < addedLines.length then
        "Replace with:\n\n----\n\n```" ++ language ++ "\n" ++
          String.intercalate "\n" addedLines ++ "\n```"
       else if 0 < deletedLines.length then
        "Remove the selected code"
       else if 0 < addedLines.length then
        "Add:\n\n```" ++ language ++ "\n" ++ String.intercalate "\n" addedLines ++ "\n```"
       else "")

/-- `createSteps` from lines 160-222 of the source. -/
def createSteps (addedLines deletedLines : List String) (fileName : String)
    (lineNumber : Nat) (isNewFile : Bool) : List CodeTourStep :=
  if isNewFile = true ∧ 0 < addedLines.length then
    [ { description := "Create an empty file:\n\nFor Linux/Mac:\n>> touch " ++ fileName ++
          "\n\nFor Windows: >> type nul > " ++ fileName,
        title := some ("Create " ++ fileName) },
      { file := some fileName, line := some 1,
        description := "Add the following content:\n\n```" ++
          getLanguageFromFileName fileName ++ "\n" ++
          String.intercalate "\n" addedLines ++ "\n```",
        title := some ("Add content to " ++ fileName) } ]
  else
    let description := generateStepDescription addedLines deletedLines fileName isNewFile
    if isNewFile = true then
      [ { description := description, title := some ("Create " ++ fileName) } ]
    else if 0 < deletedLines.length then
      [ { description := description, file := some fileName,
          selection := some
            { start := { line := lineNumber, character := 1 },
              endPos := { line := lineNumber + deletedLines.length - 1,
                          character := (deletedLines.getLastD "").length + 1 } } } ]
    else
      [ { description := description, file := some fileName, line := some lineNumber } ]

/-- The full parser-plus-synthesizer pipeline: the steps accumulated by
`generateCodeTour` for a given diff text (the source pushes the result of
`createSteps` at every flush; folding append over the flushed runs yields
the identical list). -/
def generateCodeTourSteps (diff : String) : List CodeTourStep :=
  (parseRuns diff).foldl
    (fun acc r => acc ++ createSteps r.addedLines r.deletedLines r.fileName
      r.lineNumber r.isNewFile) []

/-! ### Helper lemmas about the startsWith model -/

theorem charsPrefix_head (p : Char) (ps cs : List Char)
    (h : charsPrefix (p :: ps) cs = true) : ∃ t, cs = p :: t ∧ charsPrefix ps t = true := by
  cases cs with
  | nil => simp [charsPrefix] at h
  | cons c t =>
    simp only [charsPrefix, Bool.and_eq_true, beq_iff_eq] at h
    exact ⟨t, by rw [h.1], h.2⟩

theorem charsPrefix_head_ne (p c : Char) (ps t : List Char) (h : (p == c) = false) :
    charsPrefix (p :: ps) (c :: t) = false := by
  simp [charsPrefix, h]

theorem strStartsWith_false_head (l pat : String) (c p : Char) (t ps : List Char)
    (hl : l.data = c :: t) (hp : pat.data = p :: ps) (h : (p == c) = false) :
    strStartsWith l pat = false := by
  unfold strStartsWith
  rw [hl, hp]
  exact charsPrefix_head_ne p c ps t h

/-! ### C2: new-file two-step invariant -/

/-- C2: for every flushed run with `isNewFile` true and at least one added
line, `createSteps` emits exactly two steps in order: the first with no
file, no line and title `Create <filePath>`, the second with the file, line
1, title `Add content to <filePath>` and a description that is the fixed
prefix followed by a fenced code block (tagged by the language classifier)
of the added lines joined by newline. -/
theorem c2_newfile_two_steps (a d : List String) (f : String) (n : Nat)
    (h : 0 < a.length) :
    ∃ s₁ s₂, createSteps a d f n true = [s₁, s₂] ∧
      s₁.file = none ∧ s₁.line = none ∧ s₁.selection = none ∧
      s₁.title = some ("Create " ++ f) ∧
      s₂.file = some f ∧ s₂.line = some 1 ∧
      s₂.title = some ("Add content to " ++ f) ∧
      s₂.description = "Add the following content:\n\n```" ++
        getLanguageFromFileName f ++ "\n" ++ String.intercalate "\n" a ++ "\n```" := by
  unfold createSteps
  rw [if_pos ⟨rfl, h⟩]
  exact ⟨_, _, rfl, rfl, rfl, rfl, rfl, rfl, rfl, rfl, rfl⟩

/-- C2 witness: the two-step shape at a concrete new-file run. -/
theorem c2_witness :
    ∃ s₁ s₂, createSteps ["hello"] [] "new.js" 7 true = [s₁, s₂] ∧
      s₁.file = none ∧ s₁.line = none ∧ s₁.selection = none ∧
      s₁.title = some ("Create " ++ "new.js") ∧
      s₂.file = some "new.js" ∧ s₂.line = some 1 ∧
      s₂.title = some ("Add content to " ++ "new.js") ∧
      s₂.description = "Add the following content:\n\n```" ++
        getLanguageFromFileName "new.js" ++ "\n" ++
        String.intercalate "\n" ["hello"] ++ "\n```" :=
  c2_newfile_two_steps ["hello"] [] "new.js" 7 (by decide)

/-! ### C4: replacement selection geometry -/

/-- C4 counterexample: at the concrete run `deletedLines = ["ab"]`,
`startLine = 3`, the emitted selection starts at character 1 (not 0 as the
claim states) and ends at character 3 = length of the last deleted line
plus one (not 2). -/
theorem c4_counterexample :
    (createSteps [] ["ab"] "f.txt" 3 false).map (fun s => s.selection) =
      [some { start := { line := 3, character := 1 },
              endPos := { line := 3, character := 3 } }] ∧
    ¬ ((createSteps [] ["ab"] "f.txt" 3 false).map (fun s => s.selection) =
      [some { start := { line := 3, character := 0 },
              endPos := { line := 3, character := 2 } }]) := by
  decide

/-- C4 amended: for every flushed modification run with non-empty
`deletedLines`, the emitted step has
`selection.start = (run.startLine, character 1)` and
`selection.end = (run.startLine + deletedLines.length - 1,`
`character (length of last deleted line) + 1)`. -/
theorem c4_amended (a d : List String) (f : String) (n : Nat) (h : d ≠ []) :
    ∃ s, createSteps a d f n false = [s] ∧
      s.selection = some
        { start := { line := n, character := 1 },
          endPos := { line := n + d.length - 1,
                      character := (d.getLastD "").length + 1 } } := by
  have hd : 0 < d.length := List.length_pos.mpr h
  unfold createSteps
  rw [if_neg (fun hc => by simpa using hc.1)]
  rw [if_neg (by simp)]
  rw [if_pos hd]
  exact ⟨_, rfl, rfl⟩

/-- C4 witness for the amended statement at a concrete run. -/
theorem c4_witness :
    ∃ s, createSteps [] ["ab"] "f.txt" 3 false = [s] ∧
      s.selection = some
        { start := { line := 3, character := 1 },
          endPos := { line := 3 + (["ab"] : List String).length - 1,
                      character := ((["ab"] : List String).getLastD "").length + 1 } } :=
  c4_amended [] ["ab"] "f.txt" 3 (by decide)

/-! ### C6: selection length -/

/-- C6: for every flushed replacement run (non-empty `deletedLines`,
`isNewFile` false), the emitted selection satisfies
`selection.end.line - selection.start.line = deletedLines.length - 1`. -/
theorem c6_selection_length (a d : List String) (f : String) (n : Nat)
    (h : d ≠ []) :
    ∃ s sel, createSteps a d f n false = [s] ∧ s.selection = some sel ∧
      sel.endPos.line - sel.start.line = d.length - 1 := by
  have hd : 0 < d.length := List.length_pos.mpr h
  unfold createSteps
  rw [if_neg (fun hc => by simpa using hc.1)]
  rw [if_neg (by simp)]
  rw [if_pos hd]
  refine ⟨_, _, rfl, rfl, ?_⟩
  show n + d.length - 1 - n = d.length - 1
  omega

/-- C6 witness at a concrete replacement run with two deleted lines. -/
theorem c6_witness :
    ∃ s sel, createSteps ["a"] ["x", "yz"] "f.c" 5 false = [s] ∧
      s.selection = some sel ∧
      sel.endPos.line - sel.start.line = (["x", "yz"] : List String).length - 1 :=
  c6_selection_length ["a"] ["x", "yz"] "f.c" 5 (by decide)

/-! ### C9: line versus selection targeting -/

/-- C9: every flushed modification run (`isNewFile` false) yields exactly
one step, whose `selection` is populated iff `deletedLines` is non-empty
and whose `line` is populated iff `deletedLines` is empty — never both and
never neither. -/
theorem c9_line_xor_selection (a d : List String) (f : String) (n : Nat) :
    ∃ s, createSteps a d f n false = [s] ∧
      (s.selection.isSome = true ↔ d ≠ []) ∧
      (s.line.isSome = true ↔ d = []) := by
  by_cases hd : d = []
  · subst hd
    unfold createSteps
    rw [if_neg (fun hc => by simpa using hc.1)]
    rw [if_neg (by simp)]
    rw [if_neg (by simp)]
    exact ⟨_, rfl, by simp, by simp⟩
  · have h1 : 0 < d.length := List.length_pos.mpr hd
    unfold createSteps
    rw [if_neg (fun hc => by simpa using hc.1)]
    rw [if_neg (by simp)]
    rw [if_pos h1]
    exact ⟨_, rfl, by simp [hd], by simp [hd]⟩

/-- C9 witness: a pure-addition run gets `line`, a deletion run gets
`selection`. -/
theorem c9_witness :
    ∃ s, createSteps ["new"] [] "m.py" 4 false = [s] ∧
      (s.selection.isSome = true ↔ ([] : List String) ≠ []) ∧
      (s.line.isSome = true ↔ ([] : List String) = []) :=
  c9_line_xor_selection ["new"] [] "m.py" 4

/-! ### C8: classifier totality -/

/-- C8: the language classifier is total: it returns a non-empty string on
every path, and returns exactly `text` whenever the lowercased extension is
not a key of the extension table or the path has no extension. -/
theorem c8_classifier_totality (p : String) :
    getLanguageFromFileName p ≠ "" ∧
    ((languageMap.find? (fun q => q.1 == toLowerStr (extname p)) = none ∨
        extname p = "") →
      getLanguageFromFileName p = "text") := by
  constructor
  · unfold getLanguageFromFileName
    cases hf : languageMap.find? (fun q => q.1 == toLowerStr (extname p)) with
    | none => simp
    | some q =>
      simp only []
      split
      · simp
      · next hq => exact hq
  · intro hcase
    have hnone : languageMap.find? (fun q => q.1 == toLowerStr (extname p)) = none := by
      rcases hcase with hn | he
      · exact hn
      · rw [he]
        decide
    unfold getLanguageFromFileName
    rw [hnone]

/-- C8 witness: unknown extension and missing extension both yield `text`,
and a known extension yields a non-empty tag. -/
theorem c8_witness :
    getLanguageFromFileName "archive.qqq" = "text" ∧
    getLanguageFromFileName "Makefile" = "text" ∧
    getLanguageFromFileName "main.py" ≠ "" :=
  ⟨(c8_classifier_totality "archive.qqq").2 (Or.inl (by decide)),
   (c8_classifier_totality "Makefile").2 (Or.inr (by decide)),
   (c8_classifier_totality "main.py").1⟩

/-! ### C3: Scenario A end to end -/

/-- The Scenario A diff text from the spec. -/
def scenarioA : String :=
  "diff --git a/file.txt b/file.txt\n--- a/file.txt\n+++ b/file.txt\n@@ -1,1 +1,1 @@\n-old content\n+new content\n"

/-- C3: the pipeline on Scenario A produces exactly one step, a
replacement: `file = "file.txt"`, selection from line 1 to line 1, no
`line` field, and a description whose fenced code block is tagged `text`
and holds `new content`.  (The concrete selection characters are 1 and 12,
the 1-based column past the end of the deleted line `old content`.) -/
theorem c3_scenarioA :
    generateCodeTourSteps scenarioA =
      [ { file := some "file.txt",
          description := "Replace with:\n\n----\n\n```text\nnew content\n```",
          selection := some { start := { line := 1, character := 1 },
                              endPos := { line := 1, character := 12 } } } ] := by
  decide

/-! ### C1: malformed hunk header -/

/-- C1 counterexample: the line `@@ malformed` begins with `@@` and does
not match the hunk-header grammar, yet processing it from the initial
state *does* enter hunk mode (`inHunk` becomes true), contradicting the
claim that hunk mode is not entered. -/
theorem c1_counterexample :
    strStartsWith "@@ malformed" "@@" = true ∧
    hunkHeaderDst "@@ malformed" = none ∧
    initState.inHunk = false ∧
    (processLine initState "@@ malformed").inHunk = true := by
  decide

/-- C1 amended: on a line that begins with `@@` but does not match the
hunk-header grammar, the parse does not fail and the target-side cursor is
left unchanged, but the parser still flushes any pending run, resets the
run-start marker to 0, and *does* enter hunk mode. -/
theorem c1_amended (s : ParseState) (l : String)
    (hl : strStartsWith l "@@" = true) (hm : hunkHeaderDst l = none) :
    (processLine s l).currentLine = s.currentLine ∧
    (processLine s l).inHunk = true ∧
    (processLine s l).changeStartLine = 0 ∧
    (processLine s l).runs =
      (if 0 < s.addedLines.length ∨ 0 < s.deletedLines.length then
        s.runs ++ [{ addedLines := s.addedLines, deletedLines := s.deletedLines,
                     fileName := s.currentFile, lineNumber := s.changeStartLine,
                     isNewFile := s.isNewFile }]
       else s.runs) := by
  obtain ⟨t, ht, -⟩ := charsPrefix_head '@' ['@'] l.data hl
  have hdg : strStartsWith l "diff --git" = false :=
    strStartsWith_false_head l "diff --git" '@' 'd' t ("iff --git".data) ht rfl rfl
  have hdn : strStartsWith l "--- /dev/null" = false :=
    strStartsWith_false_head l "--- /dev/null" '@' '-' t ("-- /dev/null".data) ht rfl rfl
  unfold processLine
  rw [hdg, hdn, hl]
  simp only [Bool.false_eq_true, if_false, if_true]
  unfold handleHunkHeader
  rw [hm]
  refine ⟨rfl, rfl, rfl, ?_⟩
  by_cases hc : 0 < s.addedLines.length ∨ 0 < s.deletedLines.length
  · simp [hc]
  · simp [hc]

/-- C1 witness for the amended statement: a malformed `@@` line applied to
a state with a pending added line. -/
theorem c1_witness :
    (processLine { currentFile := "a.txt", currentLine := 4, changeStartLine := 3,
                   addedLines := ["zz"], deletedLines := [], inHunk := true,
                   isNewFile := false, runs := [] } "@@ oops").currentLine = 4 ∧
    (processLine { currentFile := "a.txt", currentLine := 4, changeStartLine := 3,
                   addedLines := ["zz"], deletedLines := [], inHunk := true,
                   isNewFile := false, runs := [] } "@@ oops").inHunk = true ∧
    (processLine { currentFile := "a.txt", currentLine := 4, changeStartLine := 3,
                   addedLines := ["zz"], deletedLines := [], inHunk := true,
                   isNewFile := false, runs := [] } "@@ oops").changeStartLine = 0 ∧
    (processLine { currentFile := "a.txt", currentLine := 4, changeStartLine := 3,
                   addedLines := ["zz"], deletedLines := [], inHunk := true,
                   isNewFile := false, runs := [] } "@@ oops").runs =
      (if 0 < (["zz"] : List String).length ∨ 0 < ([] : List String).length then
        [] ++ [{ addedLines := ["zz"], deletedLines := [], fileName := "a.txt",
                 lineNumber := 3, isNewFile := false }]
       else []) :=
  c1_amended
    { currentFile := "a.txt", currentLine := 4, changeStartLine := 3,
      addedLines := ["zz"], deletedLines := [], inHunk := true,
      isNewFile := false, runs := [] } "@@ oops" (by decide) (by decide)

/-! ### C10: runs accumulated with an empty current file -/

/-- A diff text whose changes accumulate before any `diff --git` header. -/
def c10diff : String := "@@ -1,1 +1,1 @@\n+x\n z\n"

/-- C10 counterexample: with no `diff --git` header at all, the context
line still flushes the accumulated run and a step *is* emitted, carrying
the empty file path — so not every emitted step belongs to a file path
parsed from a header. -/
theorem c10_counterexample :
    (generateCodeTourSteps c10diff).length = 1 ∧
    (generateCodeTourSteps c10diff).map (fun s => s.file) = [some ""] := by
  decide

/-- C10 amended: changes accumulated while the current file path is empty
are discarded at the two guarded flush points — a `diff --git` header line
flushes nothing (and clears the accumulator), and the end-of-input flush
emits nothing — but runs flushed at hunk headers or context lines are
still emitted, with the empty file path. -/
theorem c10_amended (s : ParseState) (l : String)
    (hf : s.currentFile = "") (hl : strStartsWith l "diff --git" = true) :
    (processLine s l).runs = s.runs ∧
    (processLine s l).addedLines = [] ∧
    (processLine s l).deletedLines = [] ∧
    finalFlush s = s.runs := by
  have hl2 : charsPrefix ('d' :: "iff --git".data) l.data = true := by
    have e : "diff --git".data = 'd' :: "iff --git".data := rfl
    unfold strStartsWith at hl
    rw [e] at hl
    exact hl
  obtain ⟨t, ht, -⟩ := charsPrefix_head 'd' ("iff --git".data) l.data hl2
  have hdn : strStartsWith l "--- /dev/null" = false :=
    strStartsWith_false_head l "--- /dev/null" 'd' '-' t ("-- /dev/null".data) ht rfl rfl
  have hh : strStartsWith l "@@" = false :=
    strStartsWith_false_head l "@@" 'd' '@' t ("@".data) ht rfl rfl
  refine ⟨?_, ?_, ?_, ?_⟩ <;>
    simp [processLine, handleFileHeader, finalFlush, hl, hdn, hh, hf]

/-- C10 witness for the amended statement: a pending added line with an
empty current file path is discarded at a file header, and the final flush
emits nothing for it. -/
theorem c10_witness :
    (processLine { currentFile := "", currentLine := 1, changeStartLine := 1,
                   addedLines := ["x"], deletedLines := [], inHunk := true,
                   isNewFile := false, runs := [] } "diff --git a/b b/b").runs = [] ∧
    (processLine { currentFile := "", currentLine := 1, changeStartLine := 1,
                   addedLines := ["x"], deletedLines := [], inHunk := true,
                   isNewFile := false, runs := [] } "diff --git a/b b/b").addedLines = [] ∧
    (processLine { currentFile := "", currentLine := 1, changeStartLine := 1,
                   addedLines := ["x"], deletedLines := [], inHunk := true,
                   isNewFile := false, runs := [] } "diff --git a/b b/b").deletedLines = [] ∧
    finalFlush { currentFile := "", currentLine := 1, changeStartLine := 1,
                 addedLines := ["x"], deletedLines := [], inHunk := true,
                 isNewFile := false, runs := [] } = [] :=
  c10_amended
    { currentFile := "", currentLine := 1, changeStartLine := 1,
      addedLines := ["x"], deletedLines := [], inHunk := true,
      isNewFile := false, runs := [] } "diff --git a/b b/b" rfl (by decide)

/-! ### C7: cursor advance per line kind -/

/-- Cursor effect of one in-hunk body line, by line kind. -/
theorem handleHunkBody_currentLine (s : ParseState) (l : String) :
    (handleHunkBody s l).currentLine =
      (if strStartsWith l "+" = true ∧ strStartsWith l "+++" = false then s.currentLine + 1
       else if strStartsWith l "-" = true ∧ strStartsWith l "---" = false then s.currentLine
       else if strStartsWith l "\\" = false then s.currentLine + 1
       else s.currentLine) := by
  by_cases h1 : strStartsWith l "+" = true ∧ strStartsWith l "+++" = false
  · simp [handleHunkBody, h1]
  · by_cases h2 : strStartsWith l "-" = true ∧ strStartsWith l "---" = false
    · simp [handleHunkBody, h1, h2]
    · by_cases h3 : strStartsWith l "\\" = false
      · by_cases h4 : 0 < s.addedLines.length ∨ 0 < s.deletedLines.length
        · simp [handleHunkBody, h1, h2, h3, h4]
        · simp [handleHunkBody, h1, h2, h3, h4]
      · simp [handleHunkBody, h1, h2, h3]

/-- C7: inside a hunk (on lines that are not file headers and not hunk
headers) the target-side cursor advances by exactly 1 for an added line,
by 0 for a deleted line, by 0 for a backslash (no-newline) line, by 1 for
any other (context) line, and is in all cases non-decreasing. -/
theorem c7_cursor_advance (s : ParseState) (l : String)
    (hin : s.inHunk = true)
    (hd : strStartsWith l "diff --git" = false)
    (hh : strStartsWith l "@@" = false) :
    ((strStartsWith l "+" = true ∧ strStartsWith l "+++" = false →
        (processLine s l).currentLine = s.currentLine + 1) ∧
     (strStartsWith l "-" = true ∧ strStartsWith l "---" = false →
        (processLine s l).currentLine = s.currentLine) ∧
     (strStartsWith l "\\" = true →
        (processLine s l).currentLine = s.currentLine) ∧
     ((¬ (strStartsWith l "+" = true ∧ strStartsWith l "+++" = false)) ∧
      (¬ (strStartsWith l "-" = true ∧ strStartsWith l "---" = false)) ∧
      strStartsWith l "\\" = false →
        (processLine s l).currentLine = s.currentLine + 1)) ∧
    s.currentLine ≤ (processLine s l).currentLine := by
  have hpl : (processLine s l).currentLine =
      (if strStartsWith l "+" = true ∧ strStartsWith l "+++" = false then s.currentLine + 1
       else if strStartsWith l "-" = true ∧ strStartsWith l "---" = false then s.currentLine
       else if strStartsWith l "\\" = false then s.currentLine + 1
       else s.currentLine) := by
    unfold processLine
    simp only [hd, Bool.false_eq_true, if_false, hh]
    by_cases hdnl : strStartsWith l "--- /dev/null" = true
    · rw [if_pos hdnl]
      have hin2 : ({ s with isNewFile := true } : ParseState).inHunk = true := hin
      rw [if_pos hin2]
      exact handleHunkBody_currentLine { s with isNewFile := true } l
    · rw [if_neg hdnl]
      rw [if_pos hin]
      exact handleHunkBody_currentLine s l
  refine ⟨⟨?_, ?_, ?_, ?_⟩, ?_⟩
  · intro h1
    rw [hpl, if_pos h1]
  · intro h2
    have hm : ∃ t, l.data = '-' :: t := by
      have e : "-".data = '-' :: ([] : List Char) := rfl
      have h2b := h2.1
      unfold strStartsWith at h2b
      rw [e] at h2b
      obtain ⟨t, ht, -⟩ := charsPrefix_head '-' [] l.data h2b
      exact ⟨t, ht⟩
    obtain ⟨t, ht⟩ := hm
    have n1 : strStartsWith l "+" = false :=
      strStartsWith_false_head l "+" '-' '+' t [] ht rfl rfl
    rw [hpl, if_neg (fun hc => by rw [n1] at hc; exact absurd hc.1 (by simp)), if_pos h2]
  · intro h3
    have hm : ∃ t, l.data = '\\' :: t := by
      have e : "\\".data = '\\' :: ([] : List Char) := rfl
      have h3b := h3
      unfold strStartsWith at h3b
      rw [e] at h3b
      obtain ⟨t, ht, -⟩ := charsPrefix_head '\\' [] l.data h3b
      exact ⟨t, ht⟩
    obtain ⟨t, ht⟩ := hm
    have n1 : strStartsWith l "+" = false :=
      strStartsWith_false_head l "+" '\\' '+' t [] ht rfl rfl
    have n2 : strStartsWith l "-" = false :=
      strStartsWith_false_head l "-" '\\' '-' t [] ht rfl rfl
    rw [hpl,
      if_neg (fun hc => by rw [n1] at hc; exact absurd hc.1 (by simp)),
      if_neg (fun hc => by rw [n2] at hc; exact absurd hc.1 (by simp)),
      if_neg (by rw [h3]; simp)]
  · intro ⟨n1, n2, h3f⟩
    rw [hpl, if_neg n1, if_neg n2, if_pos h3f]
  · rw [hpl]
    split
    · omega
    · split
      · omega
      · split
        · omega
        · omega

/-- C7 witness: concrete state inside a hunk, on an added line. -/
theorem c7_witness :
    (processLine { currentFile := "a.c", currentLine := 9, changeStartLine := 0,
                   addedLines := [], deletedLines := [], inHunk := true,
                   isNewFile := false, runs := [] } "+q").currentLine = 9 + 1 ∧
    ({ currentFile := "a.c", currentLine := 9, changeStartLine := 0,
       addedLines := [], deletedLines := [], inHunk := true,
       isNewFile := false, runs := [] } : ParseState).currentLine ≤
      (processLine { currentFile := "a.c", currentLine := 9, changeStartLine := 0,
                     addedLines := [], deletedLines := [], inHunk := true,
                     isNewFile := false, runs := [] } "+q").currentLine := by
  have h := c7_cursor_advance
    { currentFile := "a.c", currentLine := 9, changeStartLine := 0,
      addedLines := [], deletedLines := [], inHunk := true,
      isNewFile := false, runs := [] } "+q" rfl (by decide) (by decide)
  exact ⟨h.1.1 ⟨by decide, by decide⟩, h.2⟩

/-! ### C5: run start lines -/

/-- A diff with a git file-deletion hunk (`+0,0` target side) followed by a
second file: the first run is flushed at the second file header with start
line 0. -/
def c5diff : String :=
  "diff --git a/a.txt b/a.txt\n--- a/a.txt\n+++ /dev/null\n@@ -1,1 +0,0 @@\n-gone\ndiff --git a/b.txt b/b.txt\n--- a/b.txt\n+++ b/b.txt\n@@ -1,1 +1,1 @@\n-x\n+y\n"

/-- C5 counterexample: on `c5diff` the parser flushes a run with non-empty
`deletedLines` whose start line is 0, so not every flushed run has a start
line that is at least 1. -/
theorem c5_counterexample :
    (parseRuns c5diff).map (fun r => (r.lineNumber, r.deletedLines)) =
      [(0, ["gone"]), (1, ["x"])] ∧
    ¬ (∀ r ∈ parseRuns c5diff, 1 ≤ r.lineNumber) := by
  decide

/-- Inductive invariant of the parsing loop: inside a hunk the cursor is
at least 1, a non-empty accumulator has a recorded start line of at least
1, and every run flushed so far has start line at least 1.  It holds under
the side condition that every hunk header seen parses with a target start
of at least 1. -/
def ParserInv (s : ParseState) : Prop :=
  (s.inHunk = true → 1 ≤ s.currentLine) ∧
  ((0 < s.addedLines.length ∨ 0 < s.deletedLines.length) → 1 ≤ s.changeStartLine) ∧
  (∀ r ∈ s.runs, 1 ≤ r.lineNumber)

theorem parserInv_init : ParserInv initState := by
  refine ⟨?_, ?_, ?_⟩
  · intro h
    simp [initState] at h
  · intro h
    simp [initState] at h
  · intro r hr
    simp [initState] at hr

theorem parserInv_handleFileHeader (s : ParseState) (l : String)
    (h : ParserInv s) : ParserInv (handleFileHeader s l) := by
  obtain ⟨h1, h2, h3⟩ := h
  refine ⟨?_, ?_, ?_⟩
  · intro hin
    simp [handleFileHeader] at hin
  · intro hne
    simp [handleFileHeader] at hne
  · intro r hr
    simp only [handleFileHeader] at hr
    split at hr
    · next hguard =>
      rcases List.mem_append.mp hr with hmem | hmem
      · exact h3 r hmem
      · simp at hmem
        subst hmem
        exact h2 hguard.2
    · exact h3 r hr

theorem parserInv_handleHunkHeader (s : ParseState) (l : String)
    (h : ParserInv s) (hg : 1 ≤ (hunkHeaderDst l).getD 0) :
    ParserInv (handleHunkHeader s l) := by
  obtain ⟨h1, h2, h3⟩ := h
  have hcur : 1 ≤ (hunkHeaderDst l).getD s.currentLine := by
    cases hd : hunkHeaderDst l with
    | none =>
      rw [hd] at hg
      simp at hg
    | some d =>
      rw [hd] at hg
      simpa using hg
  refine ⟨?_, ?_, ?_⟩
  · intro _
    simpa [handleHunkHeader] using hcur
  · intro hne
    by_cases hf : 0 < s.addedLines.length ∨ 0 < s.deletedLines.length
    · simp [handleHunkHeader, hf] at hne
    · simp [handleHunkHeader, hf] at hne
  · intro r hr
    simp only [handleHunkHeader] at hr
    split at hr
    · next hflush =>
      rcases List.mem_append.mp hr with hmem | hmem
      · exact h3 r hmem
      · simp at hmem
        subst hmem
        exact h2 hflush
    · exact h3 r hr

theorem parserInv_isNewFile (s : ParseState) (h : ParserInv s) :
    ParserInv { s with isNewFile := true } := h

theorem parserInv_handleHunkBody (s : ParseState) (l : String)
    (h : ParserInv s) (hin : s.inHunk = true) :
    ParserInv (handleHunkBody s l) := by
  obtain ⟨h1, h2, h3⟩ := h
  have hcl : 1 ≤ s.currentLine := h1 hin
  unfold handleHunkBody
  split
  · refine ⟨?_, ?_, ?_⟩
    · intro _
      show 1 ≤ s.currentLine + 1
      omega
    · intro _
      show 1 ≤ if s.changeStartLine = 0 then s.currentLine else s.changeStartLine
      by_cases hz : s.changeStartLine = 0
      · rw [if_pos hz]
        exact hcl
      · rw [if_neg hz]
        omega
    · intro r hr
      exact h3 r hr
  · split
    · refine ⟨?_, ?_, ?_⟩
      · intro _
        exact hcl
      · intro _
        show 1 ≤ if s.changeStartLine = 0 then s.currentLine else s.changeStartLine
        by_cases hz : s.changeStartLine = 0
        · rw [if_pos hz]
          exact hcl
        · rw [if_neg hz]
          omega
      · intro r hr
        exact h3 r hr
    · split
      · split
        · refine ⟨?_, ?_, ?_⟩
          · intro _
            show 1 ≤ s.currentLine + 1
            omega
          · intro hne
            simp at hne
          · intro r hr
            rcases List.mem_append.mp hr with hmem | hmem
            · exact h3 r hmem
            · simp at hmem
              subst hmem
              show 1 ≤ if 0 < s.changeStartLine then s.changeStartLine else s.currentLine
              by_cases hz : 0 < s.changeStartLine
              · rw [if_pos hz]
                omega
              · rw [if_neg hz]
                exact hcl
        · refine ⟨?_, h2, h3⟩
          intro _
          show 1 ≤ s.currentLine + 1
          omega
      · exact ⟨h1, h2, h3⟩

theorem parserInv_stage3 (s2 : ParseState) (l : String) (h2 : ParserInv s2) :
    ParserInv (if s2.inHunk = true then handleHunkBody s2 l else s2) := by
  split
  · next hin => exact parserInv_handleHunkBody s2 l h2 hin
  · exact h2

theorem parserInv_processLine (s : ParseState) (l : String) (h : ParserInv s)
    (hg : strStartsWith l "@@" = true → 1 ≤ (hunkHeaderDst l).getD 0) :
    ParserInv (processLine s l) := by
  by_cases hfh : strStartsWith l "diff --git" = true <;>
    by_cases hdn : strStartsWith l "--- /dev/null" = true <;>
      by_cases hat : strStartsWith l "@@" = true <;>
        simp only [processLine, hfh, hdn, hat, if_true, if_false]
  all_goals
    first
      | exact parserInv_handleHunkHeader _ l
          (parserInv_isNewFile _ (parserInv_handleFileHeader s l h)) (hg hat)
      | exact parserInv_handleHunkHeader _ l
          (parserInv_handleFileHeader s l h) (hg hat)
      | exact parserInv_handleHunkHeader _ l (parserInv_isNewFile s h) (hg hat)
      | exact parserInv_handleHunkHeader _ l h (hg hat)
      | exact parserInv_stage3 _ l
          (parserInv_isNewFile _ (parserInv_handleFileHeader s l h))
      | exact parserInv_stage3 _ l (parserInv_handleFileHeader s l h)
      | exact parserInv_stage3 _ l (parserInv_isNewFile s h)

theorem parserInv_foldl (ls : List String) (s : ParseState) (h : ParserInv s)
    (hg : ∀ l ∈ ls, strStartsWith l "@@" = true → 1 ≤ (hunkHeaderDst l).getD 0) :
    ParserInv (ls.foldl processLine s) := by
  induction ls generalizing s with
  | nil => exact h
  | cons a as ih =>
    rw [List.foldl_cons]
    exact ih (processLine s a)
      (parserInv_processLine s a h (hg a (List.mem_cons_self a as)))
      (fun l hl => hg l (List.mem_cons_of_mem a hl))

/-- C5 amended: provided every input line beginning with `@@` matches the
hunk-header grammar with a target start of at least 1, every change run
flushed by the parser has a start line of at least 1.  (Git emits `+0,0`
headers for file deletions; runs under such a hunk that are flushed at a
following file header or hunk header carry start line 0, as the
counterexample shows.) -/
theorem c5_amended (diff : String)
    (H : ∀ l ∈ splitLines diff, strStartsWith l "@@" = true →
      1 ≤ (hunkHeaderDst l).getD 0) :
    ∀ r ∈ parseRuns diff, 1 ≤ r.lineNumber := by
  intro r hr
  have hinv : ParserInv ((splitLines diff).foldl processLine initState) :=
    parserInv_foldl (splitLines diff) initState parserInv_init H
  unfold parseRuns finalFlush at hr
  split at hr
  · rcases List.mem_append.mp hr with hmem | hmem
    · exact hinv.2.2 r hmem
    · simp at hmem
      subst hmem
      show 1 ≤ if 0 < ((splitLines diff).foldl processLine initState).changeStartLine
               then ((splitLines diff).foldl processLine initState).changeStartLine else 1
      by_cases hz : 0 < ((splitLines diff).foldl processLine initState).changeStartLine
      · rw [if_pos hz]
        omega
      · rw [if_neg hz]
  · exact hinv.2.2 r hr

/-- C5 witness for the amended statement: on a small well-formed diff the
single flushed run (which is a member of the parsed run list) has start
line at least 1. -/
theorem c5_witness :
    1 ≤ ({ addedLines := ["x"], deletedLines := [], fileName := "f",
           lineNumber := 1, isNewFile := false } : ChangeRun).lineNumber :=
  c5_amended "diff --git a/f b/f\n@@ -1,1 +1,1 @@\n+x\n" (by decide)
    { addedLines := ["x"], deletedLines := [], fileName := "f",
      lineNumber := 1, isNewFile := false } (by decide)
